import Mathlib

/-!
# Verification of the TGE day-ahead-market scraper (tge_scraper.py)

A shallow embedding of `tge_scraper.py` into Lean.  Pure parsing and
filtering code is translated into executable Lean functions; the effectful
fetch loop is modelled by explicit state passing over an oracle
(`Nat → AttemptOutcome`) describing, for each attempt index, what the network
and the HTML parser would deliver on that attempt.  Python exceptions are
modelled as explicit outcome constructors; the Python `None` failure signal
is `Option.none`.
-/

set_option maxHeartbeats 1000000

namespace TGE

/-- Models Python `str.strip()` applied to a cell's text
(`cell.get_text(strip=True)` strips surrounding whitespace): drop leading
and trailing whitespace characters. -/
def pyStrip (s : String) : String :=
  String.mk (((s.data.dropWhile Char.isWhitespace).reverse.dropWhile Char.isWhitespace).reverse)

/-- Models Python `range(n)` for a possibly non-positive `n` (an `int`):
`range(n)` is empty whenever `n ≤ 0`. -/
def pyRange (n : Int) : List Nat := List.range n.toNat

/-- A `<td>` cell of the scraped table: its two metadata attributes
(`data-title`, `data-label`; `none` = attribute absent) and its visible
text (`get_text`, not yet stripped). -/
structure Cell where
  dataTitle : Option String
  dataLabel : Option String
  text : String
deriving DecidableEq, Repr

/-- The `<table id="rdn">` element: `tbody` is the optional `<tbody>`
section, holding the list of `<tr>` rows, each a list of `<td>` cells. -/
structure HtmlTable where
  tbody : Option (List (List Cell))
deriving DecidableEq, Repr

/-- `COLUMN_MAPPING` from the source (lines 41-59): the static
positional-index-to-name table; the Python dict with keys `0..16` is
embedded as the list whose index is the key. -/
def COLUMN_MAPPING : List String :=
  [ "Instrument",
    "Typ instrumentu",
    "Fixing I - Kurs [PLN/MWh]",
    "Fixing I - Wolumen [MW]",
    "Fixing II - Kurs jednolity [PLN/MWh]",
    "Fixing II - Wolumen [MW]",
    "Notowania ciągłe - Kurs jednolity [EUR/MWh]",
    "Notowania ciągłe - Kurs jednolity [PLN/MWh]",
    "Notowania ciągłe - Wolumen [MW]",
    "Notowania ciągłe - Wolumen kupna [MW]",
    "Notowania ciągłe - Wolumen sprzedaży [MW]",
    "Łącznie - Kurs min. [PLN/MWh]",
    "Łącznie - Kurs max. [PLN/MWh]",
    "Łącznie - Kurs średnioważony [PLN/MWh]",
    "Łącznie - Wolumen [MWh]",
    "Łącznie - Wolumen kupna [MWh]",
    "Łącznie - Wolumen sprzedaży [MWh]" ]

/-- Models Python `a or b` on two optional strings, where both a missing
attribute (`None`) and an empty string are falsy. -/
def pyOrStr : Option String → Option String → Option String
  | some s, b => if s = "" then b else some s
  | none, b => b

/-- `COLUMN_MAPPING.get(idx, f"Kolumna_{idx + 1}")` (source line 122). -/
def fallbackName (idx : Nat) : String :=
  (COLUMN_MAPPING[idx]?).getD ("Kolumna_" ++ toString (idx + 1))

/-- Column-name resolution for one cell (source lines 120-122):
`col_name = cell.get('data-title') or cell.get('data-label')`, and when the
result is falsy (absent or empty), the positional fallback. -/
def resolveColName (idx : Nat) (cell : Cell) : String :=
  match pyOrStr cell.dataTitle cell.dataLabel with
  | some s => if s = "" then fallbackName idx else s
  | none => fallbackName idx

/-- A Record: the insertion-ordered string-to-string mapping built for one
row (`row_dict` in the source). -/
abbrev Record := List (String × String)

/-- Python dict assignment `d[k] = v`: an existing key keeps its insertion
position and gets the new value (last write wins); a new key is appended. -/
def dictInsert (d : Record) (k v : String) : Record :=
  if d.any (fun p => p.1 == k) then
    d.map (fun p => if p.1 = k then (k, v) else p)
  else d ++ [(k, v)]

/-- Builds `row_dict` for one `<tr>` (source lines 118-123): for each cell,
in order, resolve the column name and assign the stripped cell text. -/
def buildRow (cells : List Cell) : Record :=
  cells.enum.foldl
    (fun d ic => dictInsert d (resolveColName ic.1 ic.2) (pyStrip ic.2.text)) []

/-- The `rows` list built from a found table (source lines 112-124): if the
table has no `<tbody>` no rows are produced; rows with zero `<td>` cells
are skipped; each remaining row becomes a Record. -/
def extractRows (t : HtmlTable) : List Record :=
  match t.tbody with
  | none => []
  | some trs => (trs.filter (fun cells => !cells.isEmpty)).map buildRow

/-- One step of `pd.DataFrame(rows).columns` accumulation: append the keys
of one record that have not been seen yet, preserving first-seen order. -/
def addCols (acc : List String) (r : Record) : List String :=
  r.foldl (fun a p => if a.contains p.1 then a else a ++ [p.1]) acc

/-- `list(pd.DataFrame(rows).columns)`: the union of the records' keys in
order of first appearance. -/
def dfColumns (rs : List Record) : List String := rs.foldl addCols []

/-- The instrument-type filter predicate of `df[df[instrument_col] == '60']`
(source line 144): a row is kept when its `Typ instrumentu` value is the
string `60`; a row lacking the column has value `NaN` there and is
dropped. -/
def keepRow (r : Record) : Bool := r.lookup "Typ instrumentu" == some "60"

/-- The filtering stage (source lines 136-150): if the column
`Typ instrumentu` exists in the DataFrame, filter on it (the
`if instrument_col:` truthiness test on the non-empty literal always
passes); otherwise return the DataFrame unfiltered. -/
def filterRecords (rows : List Record) : List Record :=
  if (dfColumns rows).contains "Typ instrumentu" then
    let instrument_col := "Typ instrumentu"
    if instrument_col ≠ "" then rows.filter keepRow else rows
  else rows

/-- Outcome of the parsing stage of one attempt (source lines 105-128). -/
inductive ParseOutcome where
  | tableMissing
  | noRows
  | data (rows : List Record)
deriving DecidableEq, Repr

/-- Parsing one fetched page: `soup.find('table', {'id': 'rdn'})` missing
(`tableMissing`), table found but no `<tbody>` or zero usable rows
(`noRows`, source lines 126-128), or a non-empty record list. -/
def parseDoc : Option HtmlTable → ParseOutcome
  | none => .tableMissing
  | some t =>
    let rows := extractRows t
    if rows.isEmpty then .noRows else .data rows

/-- The extractor as a whole on one fetched page: failure signal (`none`)
for a missing table or no rows, otherwise the filtered record set. -/
def extract (doc : Option HtmlTable) : Option (List Record) :=
  match parseDoc doc with
  | .tableMissing => none
  | .noRows => none
  | .data rows => some (filterRecords rows)

/-- What the environment delivers on one attempt: a transport-level failure
(`requests.exceptions.RequestException`, including `raise_for_status`), a
successfully fetched page (with the optional `rdn` table the parser finds
in it), or a non-transport exception thrown while processing (caught by
the generic `except Exception` handler, source lines 156-158). -/
inductive AttemptOutcome where
  | transportFail
  | page (doc : Option HtmlTable)
  | crash
deriving DecidableEq, Repr

/-- Observable trace of one `scrape_tge_data` invocation: how many
`session.get` calls were issued, the `time.sleep` durations in order,
whether `session.close()` was ever called (the source never calls it, nor
uses a `with` block, so every path records `false`), and the returned
value (`none` models the Python `None` failure signal). -/
structure ScrapeTrace where
  requests : Nat
  sleeps : List Nat
  sessionClosed : Bool
  result : Option (List Record)
deriving DecidableEq, Repr

/-- The retry loop body (source lines 93-160), recursing over the remaining
attempt indices of `range(max_retries)` and accumulating the request count
and the sleep list (newest first). -/
def runAttempts (env : Nat → AttemptOutcome) (max_retries : Int) :
    List Nat → Nat → List Nat → ScrapeTrace
  | [], reqs, sl => ⟨reqs, sl.reverse, false, none⟩
  | attempt :: rest, reqs, sl =>
    let sl1 := if 0 < attempt then 2 ^ attempt :: sl else sl
    let reqs1 := reqs + 1
    match env attempt with
    | .transportFail =>
      if (attempt : Int) = max_retries - 1 then ⟨reqs1, sl1.reverse, false, none⟩
      else runAttempts env max_retries rest reqs1 sl1
    | .crash => ⟨reqs1, sl1.reverse, false, none⟩
    | .page doc =>
      match parseDoc doc with
      | .tableMissing =>
        if (attempt : Int) < max_retries - 1 then runAttempts env max_retries rest reqs1 sl1
        else ⟨reqs1, sl1.reverse, false, none⟩
      | .noRows => ⟨reqs1, sl1.reverse, false, none⟩
      | .data rows => ⟨reqs1, sl1.reverse, false, some (filterRecords rows)⟩

/-- `scrape_tge_data` (source lines 61-160) over an attempt-outcome oracle:
creates a session (never closed), then runs `for attempt in
range(max_retries)` and falls through to `return None` when the loop
exhausts without returning. -/
def scrape_tge_data (env : Nat → AttemptOutcome) (max_retries : Int) : ScrapeTrace :=
  runAttempts env max_retries (pyRange max_retries) 0 []

/-! ## The date collaborator `get_polish_date` (source lines 8-39) -/

/-- A Python `datetime` value at second granularity (the scraper only
reads the date part and compares instants). -/
structure PyDateTime where
  year : Nat
  month : Nat
  day : Nat
  hour : Nat
  minute : Nat
  second : Nat
deriving DecidableEq, Repr

/-- `True` on Gregorian leap years, as Python's `calendar.isleap`. -/
def isLeap (y : Nat) : Bool := y % 4 == 0 && (y % 100 != 0 || y % 400 == 0)

/-- Length of a month of the Gregorian calendar (0 outside `1..12`). -/
def daysInMonth (y m : Nat) : Nat :=
  match m with
  | 1 => 31 | 2 => if isLeap y then 29 else 28 | 3 => 31 | 4 => 30
  | 5 => 31 | 6 => 30 | 7 => 31 | 8 => 31 | 9 => 30 | 10 => 31
  | 11 => 30 | 12 => 31
  | _ => 0

/-- A valid `datetime` (what `datetime.now` / `datetime.utcnow` can
return). -/
def isValidDT (t : PyDateTime) : Bool :=
  1 ≤ t.year && t.year ≤ 9999 && 1 ≤ t.month && t.month ≤ 12 &&
  1 ≤ t.day && t.day ≤ daysInMonth t.year t.month &&
  t.hour < 24 && t.minute < 60 && t.second < 60

/-- Days in the proleptic Gregorian calendar before January 1 of year `y`
(so `date(1, 1, 1).toordinal() = daysBeforeYear 1 + daysBeforeMonth 1 1 +
1 = 1`). -/
def daysBeforeYear (y : Nat) : Nat :=
  365 * (y - 1) + (y - 1) / 4 - (y - 1) / 100 + (y - 1) / 400

/-- Days of year `y` before the first of month `m`. -/
def daysBeforeMonth (y m : Nat) : Nat :=
  ((List.range (m - 1)).map (fun i => daysInMonth y (i + 1))).sum

/-- Python's `date.toordinal()`. -/
def toOrdinal (y m d : Nat) : Nat := daysBeforeYear y + daysBeforeMonth y m + d

/-- Python's `date.weekday()`: Monday = 0 .. Sunday = 6
(0001-01-01, ordinal 1, was a Monday). -/
def weekday (y m d : Nat) : Nat := (toOrdinal y m d - 1) % 7

/-- Models `max(week[-1] for week in calendar.monthcalendar(year, month))`
(source lines 26-27): the day of the month's last Sunday (`week[-1]` is
the Sunday column of a Monday-first month calendar, padded with 0). -/
def lastSunday (y m : Nat) : Nat :=
  let dim := daysInMonth y m
  dim - ((weekday y m dim + 1) % 7)

/-- Total ordering key for `datetime` comparison. -/
def timeKey (t : PyDateTime) : Nat :=
  ((toOrdinal t.year t.month t.day * 24 + t.hour) * 60 + t.minute) * 60 + t.second

/-- The calendar date following `(y, m, d)`. -/
def nextDate (y m d : Nat) : Nat × Nat × Nat :=
  if d < daysInMonth y m then (y, m, d + 1)
  else if m < 12 then (y, m + 1, 1) else (y + 1, 1, 1)

/-- `t + timedelta(hours=k)` for `k ≤ 23`: at most one day rollover. -/
def addHours (t : PyDateTime) (k : Nat) : PyDateTime :=
  if t.hour + k < 24 then ⟨t.year, t.month, t.day, t.hour + k, t.minute, t.second⟩
  else
    let n := nextDate t.year t.month t.day
    ⟨n.1, n.2.1, n.2.2, t.hour + k - 24, t.minute, t.second⟩

/-- The manual fallback branch (source lines 22-37): compute the EU DST
window `[last-Sunday-of-March 01:00 UTC, last-Sunday-of-October 01:00
UTC)` of `utc_now`'s year and add a 2-hour offset inside it, 1 hour
outside. -/
def manualPolishTime (utcNow : PyDateTime) : PyDateTime :=
  let year := utcNow.year
  let dstStart : PyDateTime := ⟨year, 3, lastSunday year 3, 1, 0, 0⟩
  let dstEnd : PyDateTime := ⟨year, 10, lastSunday year 10, 1, 0, 0⟩
  let offset : Nat :=
    if timeKey dstStart ≤ timeKey utcNow ∧ timeKey utcNow < timeKey dstEnd then 2 else 1
  addHours utcNow offset

/-- The two-character zero-padded rendering of `%d` / `%m`. -/
def twoDigits (n : Nat) : List Char :=
  [Nat.digitChar (n / 10 % 10), Nat.digitChar (n % 10)]

/-- The rendering of `%Y` for years `1000..9999` (four digits; CPython's
`strftime` prints such years as exactly four digits). -/
def fourDigits (n : Nat) : List Char :=
  [Nat.digitChar (n / 1000 % 10), Nat.digitChar (n / 100 % 10),
   Nat.digitChar (n / 10 % 10), Nat.digitChar (n % 10)]

/-- `polish_time.strftime("%d-%m-%Y")` (source line 39). -/
def strftimeDMY (t : PyDateTime) : String :=
  String.mk (twoDigits t.day ++ '-' :: twoDigits t.month ++ '-' :: fourDigits t.year)

/-- Checks that a string is a well-formed `DD-MM-YYYY` date rendering:
ten characters, digits and dashes in the right places, day in `1..31`,
month in `1..12`. -/
def validDDMMYYYY (s : String) : Bool :=
  match s.data with
  | [d1, d2, h1, m1, m2, h2, y1, y2, y3, y4] =>
    d1.isDigit && d2.isDigit && h1 == '-' && m1.isDigit && m2.isDigit &&
    h2 == '-' && y1.isDigit && y2.isDigit && y3.isDigit && y4.isDigit &&
    (let dv := (d1.toNat - 48) * 10 + (d2.toNat - 48)
     let mv := (m1.toNat - 48) * 10 + (m2.toNat - 48)
     1 ≤ dv && dv ≤ 31 && 1 ≤ mv && mv ≤ 12)
  | _ => false

/-- What the `pytz` branch (source lines 17-20) delivers: a Warsaw-local
`datetime`, an `ImportError` (caught, source line 21), or any other
exception (nothing catches it there). -/
inductive PytzOutcome where
  | ok (t : PyDateTime)
  | importError
  | otherError
deriving DecidableEq, Repr

/-- The environment `get_polish_date` runs in: what the `zoneinfo` branch
delivers (`Except.error` is any exception — `ImportError` or otherwise —
since the handler on source line 16 catches all of `Exception`), what the
`pytz` branch delivers, and the value of `datetime.utcnow()`. -/
structure DateEnv where
  zoneinfoOutcome : Except Unit PyDateTime
  pytzOutcome : PytzOutcome
  utcNow : PyDateTime
deriving Repr

/-- `get_polish_date` (source lines 8-39): `Except.error ()` models an
exception escaping to the caller, which happens only when the `zoneinfo`
branch fails and the `pytz` branch raises something other than
`ImportError`. -/
def get_polish_date (env : DateEnv) : Except Unit String :=
  match env.zoneinfoOutcome with
  | .ok t => .ok (strftimeDMY t)
  | .error _ =>
    match env.pytzOutcome with
    | .ok t => .ok (strftimeDMY t)
    | .otherError => .error ()
    | .importError => .ok (strftimeDMY (manualPolishTime env.utcNow))

/-! ## The persistence collaborator `save_to_file` (source lines 162-184)

`df.to_csv(filepath, index=False, encoding='utf-8-sig')` writes a header
line of column names followed by one line per row, fields joined by `,`
and lines terminated by a newline, with `csv.QUOTE_MINIMAL` quoting: a
field containing the delimiter, the quote character or a line break is
wrapped in double quotes with embedded quotes doubled.  The model works at
text level (the `utf-8-sig` byte signature is below this level of
abstraction); `parseCSV` models reading the file back (as strings). -/

/-- `csv.QUOTE_MINIMAL`: does this field need quoting? -/
def needsQuote (s : String) : Bool :=
  s.data.any (fun c => c == ',' || c == '"' || c == '\n' || c == '\r')

/-- Doubles every double-quote character. -/
def escapeChars : List Char → List Char
  | [] => []
  | c :: rest =>
    if c = '"' then '"' :: '"' :: escapeChars rest else c :: escapeChars rest

/-- One written CSV field. -/
def encodeField (s : String) : List Char :=
  if needsQuote s then '"' :: escapeChars s.data ++ ['"'] else s.data

/-- `','.join` of the encoded fields of one line. -/
def encodeRowChars : List String → List Char
  | [] => []
  | [f] => encodeField f
  | f :: fs => encodeField f ++ ',' :: encodeRowChars fs

/-- The whole file: every line (header included) terminated by `\n`. -/
def encodeCSV (table : List (List String)) : List Char :=
  table.flatMap (fun row => encodeRowChars row ++ ['\n'])

/-- Reads one quoted field: stops at a lone closing quote, undoubles
embedded quote pairs; returns the field content and the remaining
characters after the closing quote. -/
def parseQuoted : List Char → List Char → List Char × List Char
  | [], acc => (acc.reverse, [])
  | c :: rest, acc =>
    if c = '"' then
      match rest with
      | '"' :: rest2 => parseQuoted rest2 ('"' :: acc)
      | _ => (acc.reverse, rest)
    else parseQuoted rest (c :: acc)

theorem parseQuoted_not_quote (c : Char) (rest acc : List Char) (hc : ¬ c = '"') :
    parseQuoted (c :: rest) acc = parseQuoted rest (c :: acc) := by
  rw [parseQuoted.eq_def]; simp [hc]

theorem parseQuoted_close_nil (acc : List Char) :
    parseQuoted ['"'] acc = (acc.reverse, []) := by
  simp [parseQuoted]

theorem parseQuoted_close (d : Char) (r acc : List Char) (hd : ¬ d = '"') :
    parseQuoted ('"' :: d :: r) acc = (acc.reverse, d :: r) := by
  simp [parseQuoted, hd]

theorem parseQuoted_escaped (rest2 acc : List Char) :
    parseQuoted ('"' :: '"' :: rest2) acc = parseQuoted rest2 ('"' :: acc) := by
  simp [parseQuoted]

theorem parseQuoted_rest_le (cs acc : List Char) :
    (parseQuoted cs acc).2.length ≤ cs.length := by
  induction cs, acc using parseQuoted.induct with
  | case1 acc => simp [parseQuoted]
  | case2 acc rest2 ih =>
    rw [parseQuoted_escaped]
    exact le_trans ih (by simp; omega)
  | case3 rest acc h =>
    match rest, h with
    | [], _ => rw [parseQuoted_close_nil]; simp
    | d :: r, h =>
      have hd : ¬ d = '"' := fun hx => h r (by rw [hx])
      rw [parseQuoted_close _ _ _ hd]; simp
  | case4 c rest acc hc ih =>
    rw [parseQuoted_not_quote _ _ _ hc]
    exact le_trans ih (by simp)

/-- The CSV reader: a character-level state machine.  `field` is the
current (unquoted) field read so far, reversed; `row` the completed fields
of the current record, reversed; `rows` the completed records, reversed.
A quoted field is delegated to `parseQuoted`. -/
def parseCSVAux (cs : List Char) (field : List Char) (row : List String)
    (rows : List (List String)) : List (List String) :=
  match cs with
  | [] =>
    if field.isEmpty && row.isEmpty then rows.reverse
    else ((String.mk field.reverse :: row).reverse :: rows).reverse
  | ',' :: rest => parseCSVAux rest [] (String.mk field.reverse :: row) rows
  | '\r' :: '\n' :: rest =>
    parseCSVAux rest [] [] ((String.mk field.reverse :: row).reverse :: rows)
  | '\n' :: rest =>
    parseCSVAux rest [] [] ((String.mk field.reverse :: row).reverse :: rows)
  | '"' :: rest =>
    if field.isEmpty then
      parseCSVAux (parseQuoted rest []).2 (parseQuoted rest []).1.reverse row rows
    else parseCSVAux rest ('"' :: field) row rows
  | c :: rest => parseCSVAux rest (c :: field) row rows
termination_by cs.length
decreasing_by
  · simp
  · simp; omega
  · simp
  · exact Nat.lt_succ_of_le (parseQuoted_rest_le _ _)
  · simp
  · simp

/-- Reading the produced file back into its lines of string fields. -/
def parseCSV (cs : List Char) : List (List String) := parseCSVAux cs [] [] []

/-- The in-memory DataFrame handed to `save_to_file`: its column list and
its rows. -/
structure DataFrame where
  columns : List String
  rows : List Record
deriving DecidableEq, Repr

/-- The cell grid `to_csv` writes below the header: each row's values in
column order (a missing key would be `NaN`, written as the empty
string). -/
def dfCells (df : DataFrame) : List (List String) :=
  df.rows.map (fun r => df.columns.map (fun c => (r.lookup c).getD ""))

/-- `save_to_file` (source lines 162-184) at text level: `none` models the
no-op diagnostic branch for an empty or absent DataFrame (`df.empty` is
true when either axis is empty); otherwise the written file content.
Output-path selection is outside the model. -/
def save_to_file (df : DataFrame) : Option (List Char) :=
  if df.rows.isEmpty || df.columns.isEmpty then none
  else some (encodeCSV (df.columns :: dfCells df))

/-! ## Concrete fixtures used by witnesses and counterexamples -/

/-- A cell labelled `Typ instrumentu` via `data-title`. -/
def cellTyp (v : String) : Cell := ⟨some "Typ instrumentu", none, v⟩

/-- A cell labelled `Instrument` via `data-title`. -/
def cellInstr (v : String) : Cell := ⟨some "Instrument", none, v⟩

/-- A well-formed three-row table: two rows of instrument type `60`, one
of type `45`. -/
def tableGood : HtmlTable :=
  ⟨some [[cellInstr "I1", cellTyp "60"],
         [cellInstr "I2", cellTyp "45"],
         [cellInstr "I3", cellTyp "60"]]⟩

/-- Environment where every fetch succeeds and delivers `tableGood`. -/
def envGood : Nat → AttemptOutcome := fun _ => .page (some tableGood)

/-- Environment where every fetch succeeds but the page has a table with
no `<tbody>`. -/
def envNoBody : Nat → AttemptOutcome := fun _ => .page (some ⟨none⟩)

/-- Environment where the first fetch finds no `rdn` table and every later
fetch delivers `tableGood`. -/
def envTableMissingFirst : Nat → AttemptOutcome :=
  fun n => if n = 0 then .page none else .page (some tableGood)

/-! ## Claim theorems -/

/-- **C3.** With `max_retries = 3` and a transport failure on every
attempt, exactly 3 request attempts occur and `scrape_tge_data` returns
the failure signal `None` (the model is total: both exception handlers
catch, so no exception reaches the caller, which the trace's defined
result witnesses). -/
theorem scrape_exhausts_three_retries :
    scrape_tge_data (fun _ => .transportFail) 3 =
      { requests := 3, sleeps := [2, 4], sessionClosed := false, result := none } := by
  decide

/-- **C10.** With `max_retries ≤ 0` the loop `for attempt in
range(max_retries)` never runs its body: no request, no sleep, and the
function falls through to `return None`. -/
theorem scrape_nonpositive_retries (env : Nat → AttemptOutcome) (m : Int) (h : m ≤ 0) :
    scrape_tge_data env m =
      { requests := 0, sleeps := [], sessionClosed := false, result := none } := by
  unfold scrape_tge_data pyRange
  have hz : m.toNat = 0 := by omega
  rw [hz]
  rfl

/-- Witness for `scrape_nonpositive_retries` at `max_retries = -2`. -/
theorem scrape_nonpositive_retries_witness :
    scrape_tge_data (fun _ => .transportFail) (-2) =
      { requests := 0, sleeps := [], sessionClosed := false, result := none } :=
  scrape_nonpositive_retries _ _ (by decide)

/-- **C7, counterexample.** On an invocation whose fetch completes
successfully (a result is returned), the session acquired at the start is
still not closed when the function returns: the source never calls
`session.close()` and uses no `with` block, so the claimed
release-on-every-path is false already on the success path. -/
theorem session_not_closed_counterexample :
    (scrape_tge_data envGood 3).result.isSome = true ∧
    (scrape_tge_data envGood 3).sessionClosed = false := by
  constructor <;> decide

/-- **C7, amended.** On every execution path of `scrape_tge_data` the
session is acquired at the start of the invocation and is never explicitly
closed; it is reclaimed only implicitly when the function returns. -/
theorem runAttempts_sessionClosed (env : Nat → AttemptOutcome) (m : Int) :
    ∀ (l : List Nat) (reqs : Nat) (sl : List Nat),
      (runAttempts env m l reqs sl).sessionClosed = false := by
  intro l
  induction l with
  | nil => intro reqs sl; rfl
  | cons a rest ih =>
    intro reqs sl
    simp only [runAttempts]
    cases henv : env a with
    | transportFail =>
      simp only [henv]
      split
      · rfl
      · exact ih _ _
    | crash => simp only [henv]
    | page doc =>
      simp only [henv]
      cases hp : parseDoc doc with
      | tableMissing =>
        simp only [hp]
        split
        · exact ih _ _
        · rfl
      | noRows => simp only [hp]
      | data rows => simp only [hp]

/-- **C7, amended.** On every execution path of `scrape_tge_data` the
session is acquired at the start of the invocation and is never explicitly
closed; it is reclaimed only implicitly when the function returns. -/
theorem session_never_closed (env : Nat → AttemptOutcome) (m : Int) :
    (scrape_tge_data env m).sessionClosed = false :=
  runAttempts_sessionClosed env m (pyRange m) 0 []

/-! ## Helper lemmas about lookups and DataFrame columns -/

theorem lookup_cons_ne (k a b : String) (rest : Record) (hk : ¬ k = a) :
    List.lookup k ((a, b) :: rest) = List.lookup k rest := by
  rw [List.lookup]
  rw [show (k == a) = false from by simpa using hk]

theorem lookup_cons_eq (a b : String) (rest : Record) :
    List.lookup a ((a, b) :: rest) = some b := by
  rw [List.lookup]
  rw [show (a == a) = true from by simp]

theorem exists_mem_of_lookup_isSome (r : Record) (k : String)
    (h : (r.lookup k).isSome) : ∃ v, (k, v) ∈ r := by
  induction r with
  | nil => simp [List.lookup] at h
  | cons p rest ih =>
    obtain ⟨a, b⟩ := p
    by_cases hk : k = a
    · exact ⟨b, by simp [hk]⟩
    · rw [lookup_cons_ne k a b rest hk] at h
      obtain ⟨v, hv⟩ := ih h
      exact ⟨v, List.mem_cons_of_mem _ hv⟩

theorem mem_addCols_of_mem_acc (r : Record) (acc : List String) (x : String)
    (h : x ∈ acc) : x ∈ addCols acc r := by
  induction r generalizing acc with
  | nil => exact h
  | cons p rest ih =>
    show x ∈ addCols (if acc.contains p.1 then acc else acc ++ [p.1]) rest
    apply ih
    split
    · exact h
    · exact List.mem_append_left _ h

theorem mem_addCols_of_mem (r : Record) (acc : List String) (k v : String)
    (h : (k, v) ∈ r) : k ∈ addCols acc r := by
  induction r generalizing acc with
  | nil => simp at h
  | cons p rest ih =>
    show k ∈ addCols (if acc.contains p.1 then acc else acc ++ [p.1]) rest
    rcases List.mem_cons.mp h with h1 | h2
    · apply mem_addCols_of_mem_acc
      have hk : p.1 = k := (congrArg Prod.fst h1).symm
      split
      · exact hk ▸ List.mem_of_elem_eq_true (by assumption)
      · exact List.mem_append_right _ (hk ▸ List.mem_singleton_self _)
    · exact ih _ h2

theorem mem_foldl_addCols_of_mem_acc (rs : List Record) (acc : List String)
    (x : String) (h : x ∈ acc) : x ∈ rs.foldl addCols acc := by
  induction rs generalizing acc with
  | nil => exact h
  | cons r rest ih => exact ih _ (mem_addCols_of_mem_acc r acc x h)

theorem mem_dfColumns_of_mem (rs : List Record) (r : Record) (hr : r ∈ rs)
    (k v : String) (hkv : (k, v) ∈ r) : k ∈ dfColumns rs := by
  unfold dfColumns
  suffices h : ∀ acc : List String, k ∈ rs.foldl addCols acc from h []
  intro acc
  induction rs generalizing acc with
  | nil => simp at hr
  | cons a rest ih =>
    rcases List.mem_cons.mp hr with h1 | h2
    · exact mem_foldl_addCols_of_mem_acc rest _ k (h1 ▸ mem_addCols_of_mem r acc k v hkv)
    · exact ih h2 _

theorem mem_addCols_iff_of_not_mem (r : Record) (acc : List String) (k : String)
    (h : ∀ v, (k, v) ∉ r) : k ∈ addCols acc r ↔ k ∈ acc := by
  induction r generalizing acc with
  | nil => exact Iff.rfl
  | cons p rest ih =>
    show k ∈ addCols (if acc.contains p.1 then acc else acc ++ [p.1]) rest ↔ _
    have hne : p.1 ≠ k := by
      intro hx
      exact h p.2 (by rw [← hx]; exact List.mem_cons_self _ _)
    rw [ih _ (fun v hv => h v (List.mem_cons_of_mem _ hv))]
    split
    · exact Iff.rfl
    · constructor
      · intro hx
        rcases List.mem_append.mp hx with h1 | h2
        · exact h1
        · exact absurd (List.mem_singleton.mp h2).symm hne
      · exact List.mem_append_left _

theorem not_mem_dfColumns (rs : List Record) (k : String)
    (h : ∀ r ∈ rs, ∀ v, (k, v) ∉ r) : k ∉ dfColumns rs := by
  unfold dfColumns
  suffices hs : ∀ acc : List String, k ∈ rs.foldl addCols acc ↔ k ∈ acc by
    intro hx
    simpa using (hs []).mp hx
  intro acc
  induction rs generalizing acc with
  | nil => exact Iff.rfl
  | cons a rest ih =>
    show k ∈ rest.foldl addCols (addCols acc a) ↔ _
    rw [ih (fun r hr => h r (List.mem_cons_of_mem _ hr)) _]
    exact mem_addCols_iff_of_not_mem a acc k (h a (List.mem_cons_self _ _))

theorem parseDoc_of_rows_ne_nil (t : HtmlTable) (h : extractRows t ≠ []) :
    parseDoc (some t) = .data (extractRows t) := by
  unfold parseDoc
  cases hx : extractRows t with
  | nil => exact absurd hx h
  | cons a l => simp [hx]

theorem filterRecords_of_mem_columns (rows : List Record)
    (h : "Typ instrumentu" ∈ dfColumns rows) :
    filterRecords rows = rows.filter keepRow := by
  unfold filterRecords
  rw [if_pos (List.elem_eq_true_of_mem h)]
  simp

theorem filterRecords_of_not_mem_columns (rows : List Record)
    (h : "Typ instrumentu" ∉ dfColumns rows) :
    filterRecords rows = rows := by
  unfold filterRecords
  rw [if_neg (fun hc => h (List.mem_of_elem_eq_true hc))]

/-- **C1.** For a well-formed table (non-empty row set, each record
carrying the `Typ instrumentu` field) the extractor returns exactly the
records whose `Typ instrumentu` value is the string `60` — the
order-preserving filter of the extracted record list, which is a sublist
of it. -/
theorem extract_filters_by_instrument_type (t : HtmlTable)
    (hne : extractRows t ≠ [])
    (hcol : ∀ r ∈ extractRows t, (r.lookup "Typ instrumentu").isSome) :
    extract (some t) = some ((extractRows t).filter keepRow) ∧
    ((extractRows t).filter keepRow).Sublist (extractRows t) := by
  refine ⟨?_, List.filter_sublist _⟩
  obtain ⟨r0, hr0⟩ := List.exists_mem_of_ne_nil _ hne
  obtain ⟨v0, hv0⟩ := exists_mem_of_lookup_isSome r0 _ (hcol r0 hr0)
  have hmem : "Typ instrumentu" ∈ dfColumns (extractRows t) :=
    mem_dfColumns_of_mem _ r0 hr0 _ v0 hv0
  unfold extract
  rw [parseDoc_of_rows_ne_nil t hne]
  show some (filterRecords (extractRows t)) = _
  rw [filterRecords_of_mem_columns _ hmem]

/-- Witness for `extract_filters_by_instrument_type` on the three-row
fixture: exactly the two type-60 records survive, in table order. -/
theorem extract_filters_by_instrument_type_witness :
    extract (some tableGood) =
      some [[("Instrument", "I1"), ("Typ instrumentu", "60")],
            [("Instrument", "I3"), ("Typ instrumentu", "60")]] ∧
    ((extractRows tableGood).filter keepRow).Sublist (extractRows tableGood) := by
  have h := extract_filters_by_instrument_type tableGood (by decide) (by decide)
  exact ⟨by rw [h.1]; decide, h.2⟩

/-- **C6.** If no record of the (non-empty) extracted row set carries a
field named `Typ instrumentu`, the extractor returns the whole unfiltered
record set. -/
theorem extract_unfiltered_when_column_absent (t : HtmlTable)
    (hne : extractRows t ≠ [])
    (habs : ∀ r ∈ extractRows t, ∀ p ∈ r, p.1 ≠ "Typ instrumentu") :
    extract (some t) = some (extractRows t) := by
  have habs2 : ∀ r ∈ extractRows t, ∀ v, ("Typ instrumentu", v) ∉ r :=
    fun r hr v hv => absurd rfl (habs r hr _ hv)
  unfold extract
  rw [parseDoc_of_rows_ne_nil t hne]
  show some (filterRecords (extractRows t)) = _
  rw [filterRecords_of_not_mem_columns _ (not_mem_dfColumns _ _ habs2)]

/-- Witness for `extract_unfiltered_when_column_absent`: a one-row table
whose only cell is labelled `Instrument`. -/
theorem extract_unfiltered_when_column_absent_witness :
    extract (some (⟨some [[cellInstr "I1"]]⟩ : HtmlTable)) =
      some [[("Instrument", "I1")]] := by
  have h := extract_unfiltered_when_column_absent (⟨some [[cellInstr "I1"]]⟩ : HtmlTable)
    (by decide) (by decide)
  rw [h]; decide

/-- **C4, counterexample.** An attempt that succeeds at the transport
level but finds a table with no `<tbody>` (a structural failure in the
claim's sense) is NOT retried even though two more attempts remain with
`max_retries = 3`: the function returns the failure signal after exactly
one request (`if not rows: return None`, source lines 126-128), refuting
the claim that every structural failure with attempts remaining triggers a
retry of the whole fetch+parse cycle. -/
theorem structural_no_rows_not_retried :
    scrape_tge_data envNoBody 3 =
      { requests := 1, sleeps := [], sessionClosed := false, result := none } := by
  decide

/-- **C4, amended.** Of the two structural failures, only the
missing-table one is retried: (a) when attempt 0 finds no `rdn` table and
at least one attempt remains, the whole fetch+parse cycle runs again and a
successful attempt 1 returns its data after 2 requests and one 2-second
backoff sleep; (b) when an attempt finds a table whose body is missing or
yields no rows, the failure signal is returned immediately after that
single request, however many attempts remain. -/
theorem structural_retry_only_for_missing_table :
    (∀ (env : Nat → AttemptOutcome) (m : Int) (doc : Option HtmlTable) (rows : List Record),
      2 ≤ m → env 0 = .page none → env 1 = .page doc → parseDoc doc = .data rows →
      scrape_tge_data env m =
        { requests := 2, sleeps := [2], sessionClosed := false,
          result := some (filterRecords rows) }) ∧
    (∀ (env : Nat → AttemptOutcome) (m : Int) (t : HtmlTable),
      1 ≤ m → env 0 = .page (some t) → extractRows t = [] →
      scrape_tge_data env m =
        { requests := 1, sleeps := [], sessionClosed := false, result := none }) := by
  constructor
  · intro env m doc rows hm h0 h1 hdata
    obtain ⟨k, hk⟩ : ∃ k, m.toNat = k + 2 := ⟨m.toNat - 2, by omega⟩
    unfold scrape_tge_data pyRange
    rw [hk]
    have hrange : List.range (k + 2) = 0 :: 1 :: List.range' 2 k := by
      rw [List.range_eq_range']
      rfl
    rw [hrange]
    simp only [runAttempts, h0, h1, hdata]
    have hc0 : ((0 : Nat) : Int) < m - 1 := by omega
    rw [if_pos hc0]
    simp [parseDoc]
  · intro env m t hm h0 hrows
    obtain ⟨k, hk⟩ : ∃ k, m.toNat = k + 1 := ⟨m.toNat - 1, by omega⟩
    unfold scrape_tge_data pyRange
    rw [hk]
    have hrange : List.range (k + 1) = 0 :: List.range' 1 k := by
      rw [List.range_eq_range']
      rfl
    rw [hrange]
    simp only [runAttempts, h0]
    simp [parseDoc, hrows]

/-- Witness for `structural_retry_only_for_missing_table`: part (a) at the
table-missing-then-good environment with `max_retries = 3`; part (b) at
the body-less table with `max_retries = 3`. -/
theorem structural_retry_only_for_missing_table_witness :
    scrape_tge_data envTableMissingFirst 3 =
      { requests := 2, sleeps := [2], sessionClosed := false,
        result := some [[("Instrument", "I1"), ("Typ instrumentu", "60")],
                        [("Instrument", "I3"), ("Typ instrumentu", "60")]] } ∧
    scrape_tge_data (fun _ => .page (some ⟨some []⟩)) 3 =
      { requests := 1, sleeps := [], sessionClosed := false, result := none } := by
  constructor
  · have h := structural_retry_only_for_missing_table.1 envTableMissingFirst 3
      (some tableGood) (extractRows tableGood) (by decide) (by decide) (by decide) (by decide)
    rw [h]
    decide
  · exact structural_retry_only_for_missing_table.2 (fun _ => .page (some ⟨some []⟩)) 3
      ⟨some []⟩ (by decide) rfl (by decide)

/-- **C5.** Column-name resolution: a non-empty `data-title` wins over
everything; with no `data-title`, a non-empty `data-label` wins; a cell
labelled `Instrument` is named `Instrument` at any position; an unlabeled
cell at zero-based position 2 gets the static name
`Fixing I - Kurs [PLN/MWh]`; an unlabeled cell at any position beyond the
17 fixed entries gets the synthetic positional name `Kolumna_<idx+1>`. -/
theorem column_name_resolution :
    (∀ s1 dl idx t, s1 ≠ "" → resolveColName idx ⟨some s1, dl, t⟩ = s1) ∧
    (∀ s2 idx t, s2 ≠ "" → resolveColName idx ⟨none, some s2, t⟩ = s2) ∧
    (∀ dl idx t, resolveColName idx ⟨some "Instrument", dl, t⟩ = "Instrument") ∧
    (∀ idx t, resolveColName idx ⟨none, some "Instrument", t⟩ = "Instrument") ∧
    (∀ t, resolveColName 2 ⟨none, none, t⟩ = "Fixing I - Kurs [PLN/MWh]") ∧
    (∀ idx t, 17 ≤ idx → resolveColName idx ⟨none, none, t⟩ =
      "Kolumna_" ++ toString (idx + 1)) := by
  refine ⟨?_, ?_, ?_, ?_, ?_, ?_⟩
  · intro s1 dl idx t h1
    simp [resolveColName, pyOrStr, h1]
  · intro s2 idx t h2
    simp [resolveColName, pyOrStr, h2]
  · intro dl idx t
    simp [resolveColName, pyOrStr]
  · intro idx t
    simp [resolveColName, pyOrStr]
  · intro t
    simp [resolveColName, pyOrStr, fallbackName, COLUMN_MAPPING]
  · intro idx t h17
    have hnone : COLUMN_MAPPING[idx]? = none :=
      List.getElem?_eq_none (by simp [COLUMN_MAPPING]; omega)
    simp [resolveColName, pyOrStr, fallbackName, hnone]

/-- Witness for `column_name_resolution` at concrete cells and
positions. -/
theorem column_name_resolution_witness :
    resolveColName 9 ⟨some "X", some "Y", "t"⟩ = "X" ∧
    resolveColName 9 ⟨none, some "Y", "t"⟩ = "Y" ∧
    resolveColName 11 ⟨some "Instrument", some "other", "t"⟩ = "Instrument" ∧
    resolveColName 11 ⟨none, some "Instrument", "t"⟩ = "Instrument" ∧
    resolveColName 2 ⟨none, none, "t"⟩ = "Fixing I - Kurs [PLN/MWh]" ∧
    resolveColName 20 ⟨none, none, "t"⟩ = "Kolumna_21" :=
  ⟨column_name_resolution.1 "X" (some "Y") 9 "t" (by decide),
   column_name_resolution.2.1 "Y" 9 "t" (by decide),
   column_name_resolution.2.2.1 (some "other") 11 "t",
   column_name_resolution.2.2.2.1 11 "t",
   column_name_resolution.2.2.2.2.1 "t",
   by rw [column_name_resolution.2.2.2.2.2 20 "t" (by decide)]; rfl⟩

/-! ## The backoff-retry schedule (C2) -/

/-- The sleep schedule of the claim: `2, 4, ..., 2^K` seconds before the
2nd through (K+1)-th attempts. -/
def backoffSleeps (K : Nat) : List Nat := (List.range K).map (fun i => 2 ^ (i + 1))

/-- The sleep accumulator contents (newest first) after processing the
attempt indices `a, a+1, ..., a+K-1`: one `2^t` per positive index `t`. -/
def revSleeps (a K : Nat) : List Nat :=
  ((((List.range' a K).filter (fun t => decide (0 < t))).map (fun t => 2 ^ t))).reverse

theorem revSleeps_succ (a K : Nat) :
    revSleeps a (K + 1) = revSleeps (a + 1) K ++ (if 0 < a then [2 ^ a] else []) := by
  unfold revSleeps
  rw [List.range'_succ]
  rw [List.filter_cons]
  by_cases ha : 0 < a
  · simp [ha]
  · simp [ha]

/-- Processing a block of consecutive attempt indices that all fail at the
transport level and are not the last attempt: the loop continues past
them, counting one request each and accumulating one backoff sleep for
each positive index. -/
theorem runAttempts_fail_block (env : Nat → AttemptOutcome) (m : Int) :
    ∀ (K a : Nat) (rest : List Nat) (reqs : Nat) (sl : List Nat),
      (∀ i, i < K → env (a + i) = .transportFail) →
      (∀ i, i < K → ((a + i : Nat) : Int) ≠ m - 1) →
      runAttempts env m (List.range' a K ++ rest) reqs sl =
        runAttempts env m rest (reqs + K) (revSleeps a K ++ sl) := by
  intro K
  induction K with
  | zero =>
    intro a rest reqs sl _ _
    simp [revSleeps]
  | succ K ih =>
    intro a rest reqs sl hfail hne
    rw [List.range'_succ, List.cons_append]
    rw [runAttempts]
    have ha : env a = .transportFail := by simpa using hfail 0 (by omega)
    simp only [ha]
    rw [if_neg (by simpa using hne 0 (by omega))]
    rw [ih (a + 1) rest (reqs + 1) _
      (fun i hi => by have := hfail (1 + i) (by omega); simpa [Nat.add_assoc] using this)
      (fun i hi => by have := hne (1 + i) (by omega); simpa [Nat.add_assoc] using this)]
    rw [revSleeps_succ]
    congr 1
    · omega
    · by_cases ha0 : 0 < a
      · simp [ha0, List.append_assoc]
      · simp [ha0]

theorem revSleeps_zero_reverse (K : Nat) :
    (if 0 < K then 2 ^ K :: revSleeps 0 K else revSleeps 0 K).reverse =
      backoffSleeps K := by
  cases K with
  | zero => rfl
  | succ K =>
    rw [if_pos (Nat.succ_pos K)]
    unfold revSleeps backoffSleeps
    rw [List.reverse_cons, List.reverse_reverse]
    have hfilter : (List.range' 0 (K + 1)).filter (fun t => decide (0 < t)) =
        List.range' 1 K := by
      rw [List.range'_succ]
      rw [List.filter_cons]
      simp only [decide_eq_true_eq]
      rw [if_neg (by omega)]
      apply List.filter_eq_self.mpr
      intro x hx
      have := List.mem_range'_1.mp hx
      simpa using by omega
    rw [hfilter]
    rw [List.range'_eq_map_range]
    rw [List.map_map]
    rw [List.range_succ, List.map_append]
    apply congrArg₂ _ ?_ (by simp)
    apply List.map_congr_left
    intro x _
    simp [Nat.add_comm]

/-- **C2.** When the first `K` attempts fail at the transport level and
attempt `K` (with `K < max_retries`) succeeds and parses to data, the
function issues exactly `K + 1` requests, sleeps `2, 4, ..., 2^K` seconds
before the 2nd through (K+1)-th attempts (none before the first), and
returns the successful attempt's filtered result. -/
theorem scrape_backoff_retry (env : Nat → AttemptOutcome) (m : Int) (K : Nat)
    (doc : Option HtmlTable) (rows : List Record)
    (hK : (K : Int) < m)
    (hfail : ∀ i, i < K → env i = .transportFail)
    (hsucc : env K = .page doc)
    (hdata : parseDoc doc = .data rows) :
    scrape_tge_data env m =
      { requests := K + 1, sleeps := backoffSleeps K, sessionClosed := false,
        result := some (filterRecords rows) } := by
  unfold scrape_tge_data pyRange
  obtain ⟨n, hn⟩ : ∃ n, m.toNat = n + 1 + K := ⟨m.toNat - K - 1, by omega⟩
  have happ := List.range'_append 0 K (n + 1) 1
  simp only [Nat.zero_add, Nat.one_mul] at happ
  have hsplit : List.range m.toNat = List.range' 0 K ++ List.range' K (n + 1) := by
    rw [List.range_eq_range', hn]
    exact happ.symm
  rw [hsplit]
  rw [runAttempts_fail_block env m K 0 _ 0 []
    (fun i hi => by simpa using hfail i hi)
    (fun i hi => by simp; omega)]
  rw [List.range'_succ]
  rw [runAttempts]
  simp only [hsucc, hdata]
  have hsl : revSleeps 0 K ++ [] = revSleeps 0 K := List.append_nil _
  rw [hsl]
  show ScrapeTrace.mk (0 + K + 1)
      (if 0 < K then 2 ^ K :: revSleeps 0 K else revSleeps 0 K).reverse false
      (some (filterRecords rows)) = _
  rw [revSleeps_zero_reverse]
  congr 1
  omega

/-- Witness for `scrape_backoff_retry`: two transport failures, then a
successful fetch of the three-row fixture, with `max_retries = 4`. -/
theorem scrape_backoff_retry_witness :
    scrape_tge_data (fun n => if n < 2 then .transportFail else .page (some tableGood)) 4 =
      { requests := 3, sleeps := [2, 4], sessionClosed := false,
        result := some [[("Instrument", "I1"), ("Typ instrumentu", "60")],
                        [("Instrument", "I3"), ("Typ instrumentu", "60")]] } := by
  have h := scrape_backoff_retry
    (fun n => if n < 2 then .transportFail else .page (some tableGood)) 4 2
    (some tableGood) (extractRows tableGood) (by decide) (by decide) (by decide) (by decide)
  rw [h]
  decide

/-! ## Validity of the date collaborator's output (C8) -/

theorem isDigit_digitChar (n : Nat) (h : n < 10) : (Nat.digitChar n).isDigit = true := by
  have hb : ∀ m, m < 10 → (Nat.digitChar m).isDigit = true := by decide
  exact hb n h

theorem digitChar_toNat (n : Nat) (h : n < 10) : (Nat.digitChar n).toNat = 48 + n := by
  have hb : ∀ m, m < 10 → (Nat.digitChar m).toNat = 48 + m := by decide
  exact hb n h

theorem twoDigitsVal (n : Nat) (h : n < 100) :
    ((Nat.digitChar (n / 10 % 10)).toNat - 48) * 10 + ((Nat.digitChar (n % 10)).toNat - 48)
      = n := by
  rw [digitChar_toNat _ (Nat.mod_lt _ (by norm_num)),
    digitChar_toNat _ (Nat.mod_lt _ (by norm_num))]
  omega

theorem validDDMMYYYY_strftime (t : PyDateTime)
    (hd1 : 1 ≤ t.day) (hd2 : t.day ≤ 31) (hm1 : 1 ≤ t.month) (hm2 : t.month ≤ 12) :
    validDDMMYYYY (strftimeDMY t) = true := by
  have h10 : ∀ n : Nat, n % 10 < 10 := fun n => Nat.mod_lt _ (by norm_num)
  unfold validDDMMYYYY strftimeDMY twoDigits fourDigits
  simp only [List.cons_append, List.nil_append]
  simp only [isDigit_digitChar _ (h10 _), Bool.true_and, beq_self_eq_true]
  rw [twoDigitsVal t.day (by omega), twoDigitsVal t.month (by omega)]
  simp
  omega

theorem daysInMonth_le_31 (y m : Nat) : daysInMonth y m ≤ 31 := by
  unfold daysInMonth
  split <;> first | omega | (split <;> omega)

theorem daysInMonth_pos (y m : Nat) (h1 : 1 ≤ m) (h2 : m ≤ 12) : 1 ≤ daysInMonth y m := by
  interval_cases m <;> simp only [daysInMonth] <;> first | omega | (split <;> omega)

theorem addHours_valid (t : PyDateTime) (k : Nat) (ht : isValidDT t = true)
    (hy : t.year ≤ 9998) (hk : k ≤ 23) : isValidDT (addHours t k) = true := by
  simp only [isValidDT, Bool.and_eq_true, decide_eq_true_eq] at ht
  obtain ⟨⟨⟨⟨⟨⟨⟨⟨hy1, hy2⟩, hm1⟩, hm2⟩, hd1⟩, hd2⟩, hh⟩, hmin⟩, hsec⟩ := ht
  unfold addHours
  by_cases hlt : t.hour + k < 24
  · rw [if_pos hlt]
    simp only [isValidDT, Bool.and_eq_true, decide_eq_true_eq]
    exact ⟨⟨⟨⟨⟨⟨⟨⟨hy1, hy2⟩, hm1⟩, hm2⟩, hd1⟩, hd2⟩, hlt⟩, hmin⟩, hsec⟩
  · rw [if_neg hlt]
    unfold nextDate
    by_cases hd : t.day < daysInMonth t.year t.month
    · rw [if_pos hd]
      simp only [isValidDT, Bool.and_eq_true, decide_eq_true_eq]
      refine ⟨⟨⟨⟨⟨⟨⟨⟨hy1, hy2⟩, hm1⟩, hm2⟩, by omega⟩, by omega⟩, by omega⟩, hmin⟩, hsec⟩
    · rw [if_neg hd]
      by_cases hm12 : t.month < 12
      · rw [if_pos hm12]
        simp only [isValidDT, Bool.and_eq_true, decide_eq_true_eq]
        refine ⟨⟨⟨⟨⟨⟨⟨⟨hy1, hy2⟩, by omega⟩, by omega⟩, by omega⟩,
          daysInMonth_pos _ _ (by omega) (by omega)⟩, by omega⟩, hmin⟩, hsec⟩
      · rw [if_neg hm12]
        simp only [isValidDT, Bool.and_eq_true, decide_eq_true_eq]
        refine ⟨⟨⟨⟨⟨⟨⟨⟨by omega, by omega⟩, by omega⟩, by omega⟩, by omega⟩,
          ?_⟩, by omega⟩, hmin⟩, hsec⟩
        show 1 ≤ daysInMonth (t.year + 1) 1
        exact daysInMonth_pos _ _ (by omega) (by omega)

theorem manualPolishTime_valid (t : PyDateTime) (ht : isValidDT t = true)
    (hy : t.year ≤ 9998) : isValidDT (manualPolishTime t) = true := by
  unfold manualPolishTime
  apply addHours_valid t _ ht hy
  split <;> omega

theorem strftimeDMY_valid_of_isValidDT (t : PyDateTime) (ht : isValidDT t = true) :
    validDDMMYYYY (strftimeDMY t) = true := by
  simp only [isValidDT, Bool.and_eq_true, decide_eq_true_eq] at ht
  exact validDDMMYYYY_strftime t (by omega)
    (le_trans (by omega) (daysInMonth_le_31 t.year t.month)) (by omega) (by omega)

/-- **C8.** In each of the three environments the claim enumerates —
timezone library (`zoneinfo`) functional, alternate library (`pytz`)
functional, or neither importable — `get_polish_date` returns a
well-formed `DD-MM-YYYY` date string and raises no exception (the result
is `Except.ok`, never `Except.error`). -/
theorem get_polish_date_never_raises (env : DateEnv)
    (h : (∃ t, env.zoneinfoOutcome = .ok t ∧ isValidDT t = true) ∨
         (env.zoneinfoOutcome = .error () ∧
           ∃ t, env.pytzOutcome = .ok t ∧ isValidDT t = true) ∨
         (env.zoneinfoOutcome = .error () ∧ env.pytzOutcome = .importError ∧
           isValidDT env.utcNow = true ∧ env.utcNow.year ≤ 9998)) :
    ∃ s, get_polish_date env = .ok s ∧ validDDMMYYYY s = true := by
  unfold get_polish_date
  rcases h with ⟨t, hz, ht⟩ | ⟨hz, t, hp, ht⟩ | ⟨hz, hp, hu, hy⟩
  · rw [hz]
    exact ⟨_, rfl, strftimeDMY_valid_of_isValidDT t ht⟩
  · rw [hz, hp]
    exact ⟨_, rfl, strftimeDMY_valid_of_isValidDT t ht⟩
  · rw [hz, hp]
    exact ⟨_, rfl, strftimeDMY_valid_of_isValidDT _ (manualPolishTime_valid _ hu hy)⟩

/-- Witness for `get_polish_date_never_raises` in the neither-library
environment on 2026-10-12 10:30:00 UTC. -/
theorem get_polish_date_never_raises_witness :
    ∃ s, get_polish_date ⟨.error (), .importError, ⟨2026, 10, 12, 10, 30, 0⟩⟩ = .ok s ∧
      validDDMMYYYY s = true :=
  get_polish_date_never_raises ⟨.error (), .importError, ⟨2026, 10, 12, 10, 30, 0⟩⟩
    (Or.inr (Or.inr ⟨rfl, rfl, by decide, by decide⟩))

/-! ## CSV write/read round trip (C9) -/

theorem string_mk_data (s : String) : String.mk s.data = s := by
  cases s
  rfl

theorem parseQuoted_escape (s rest acc : List Char)
    (hrest : rest = [] ∨ ∃ d r, rest = d :: r ∧ d ≠ '"') :
    parseQuoted (escapeChars s ++ '"' :: rest) acc = (acc.reverse ++ s, rest) := by
  induction s generalizing acc with
  | nil =>
    show parseQuoted ('"' :: rest) acc = (acc.reverse ++ [], rest)
    rcases hrest with h | ⟨d, r, hdr, hd⟩
    · rw [h, parseQuoted_close_nil]
      simp
    · rw [hdr, parseQuoted_close d r acc hd]
      simp
  | cons c s ih =>
    by_cases hc : c = '"'
    · subst hc
      rw [show escapeChars ('"' :: s) = '"' :: '"' :: escapeChars s from by
        simp [escapeChars]]
      rw [List.cons_append, List.cons_append, parseQuoted_escaped, ih]
      simp
    · rw [show escapeChars (c :: s) = c :: escapeChars s from by simp [escapeChars, hc]]
      rw [List.cons_append, parseQuoted_not_quote c _ acc hc, ih]
      simp

theorem parseCSVAux_nil_nil (rows : List (List String)) :
    parseCSVAux [] [] [] rows = rows.reverse := by
  rw [parseCSVAux.eq_def]
  rfl

theorem parseCSVAux_comma (rest : List Char) (field : List Char) (row : List String)
    (rows : List (List String)) :
    parseCSVAux (',' :: rest) field row rows =
      parseCSVAux rest [] (String.mk field.reverse :: row) rows := by
  rw [parseCSVAux.eq_def]
  rfl

theorem parseCSVAux_newline (rest : List Char) (field : List Char) (row : List String)
    (rows : List (List String)) :
    parseCSVAux ('\n' :: rest) field row rows =
      parseCSVAux rest [] [] ((String.mk field.reverse :: row).reverse :: rows) := by
  rw [parseCSVAux.eq_def]
  rfl

theorem parseCSVAux_quote_start (rest : List Char) (row : List String)
    (rows : List (List String)) :
    parseCSVAux ('"' :: rest) [] row rows =
      parseCSVAux (parseQuoted rest []).2 (parseQuoted rest []).1.reverse row rows := by
  rw [parseCSVAux.eq_def]
  rfl

theorem parseCSVAux_other (c : Char) (hc1 : c ≠ ',') (hc2 : c ≠ '\n') (hc3 : c ≠ '\r')
    (hc4 : c ≠ '"') (rest : List Char) (field : List Char) (row : List String)
    (rows : List (List String)) :
    parseCSVAux (c :: rest) field row rows = parseCSVAux rest (c :: field) row rows := by
  rw [parseCSVAux.eq_def]
  simp [hc1, hc2, hc3, hc4]

theorem parseCSVAux_text (s : List Char)
    (hs : ∀ c ∈ s, c ≠ ',' ∧ c ≠ '\n' ∧ c ≠ '\r' ∧ c ≠ '"')
    (rest : List Char) (field : List Char) (row : List String)
    (rows : List (List String)) :
    parseCSVAux (s ++ rest) field row rows =
      parseCSVAux rest (s.reverse ++ field) row rows := by
  induction s generalizing field with
  | nil => simp
  | cons c s ih =>
    obtain ⟨h1, h2, h3, h4⟩ := hs c (List.mem_cons_self _ _)
    rw [List.cons_append, parseCSVAux_other c h1 h2 h3 h4]
    rw [ih (fun d hd => hs d (List.mem_cons_of_mem _ hd))]
    simp

theorem not_needsQuote_chars (f : String) (h : needsQuote f = false) :
    ∀ c ∈ f.data, c ≠ ',' ∧ c ≠ '\n' ∧ c ≠ '\r' ∧ c ≠ '"' := by
  intro c hc
  unfold needsQuote at h
  rw [List.any_eq_false] at h
  have hx := h c hc
  simp only [Bool.or_eq_true, beq_iff_eq, not_or] at hx
  exact ⟨hx.1.1.1, hx.1.2, hx.2, hx.1.1.2⟩

theorem parseCSVAux_field (f : String) (rest : List Char)
    (hrest : rest = [] ∨ ∃ d r, rest = d :: r ∧ d ≠ '"')
    (row : List String) (rows : List (List String)) :
    parseCSVAux (encodeField f ++ rest) [] row rows =
      parseCSVAux rest f.data.reverse row rows := by
  by_cases hq : needsQuote f
  · rw [show encodeField f = '"' :: (escapeChars f.data ++ ['"']) from by
      simp [encodeField, hq]]
    rw [List.cons_append, List.append_assoc]
    rw [parseCSVAux_quote_start]
    rw [show ['"'] ++ rest = '"' :: rest from rfl]
    rw [parseQuoted_escape f.data rest [] hrest]
    simp
  · rw [show encodeField f = f.data from by simp [encodeField, hq]]
    rw [parseCSVAux_text f.data (not_needsQuote_chars f (by simpa using hq))]
    simp

theorem parseCSVAux_fields (f : String) (fs : List String) (rest : List Char)
    (row : List String) (rows : List (List String)) :
    parseCSVAux (encodeRowChars (f :: fs) ++ '\n' :: rest) [] row rows =
      parseCSVAux rest [] [] ((row.reverse ++ f :: fs) :: rows) := by
  induction fs generalizing f row with
  | nil =>
    rw [show encodeRowChars [f] = encodeField f from rfl]
    rw [parseCSVAux_field f _ (Or.inr ⟨'\n', rest, rfl, by decide⟩)]
    rw [parseCSVAux_newline]
    rw [List.reverse_reverse, string_mk_data]
    simp
  | cons g gs ih =>
    rw [show encodeRowChars (f :: g :: gs) = encodeField f ++ ',' :: encodeRowChars (g :: gs)
      from rfl]
    rw [List.append_assoc, List.cons_append]
    rw [parseCSVAux_field f _ (Or.inr ⟨',', _, rfl, by decide⟩)]
    rw [parseCSVAux_comma]
    rw [List.reverse_reverse, string_mk_data]
    rw [ih g (f :: row)]
    simp

theorem parseCSVAux_table (table : List (List String)) (h : ∀ row ∈ table, row ≠ [])
    (rows : List (List String)) :
    parseCSVAux (encodeCSV table) [] [] rows = rows.reverse ++ table := by
  induction table generalizing rows with
  | nil =>
    rw [show encodeCSV [] = ([] : List Char) from rfl, parseCSVAux_nil_nil]
    simp
  | cons row t ih =>
    obtain ⟨f, fs, hrow⟩ : ∃ f fs, row = f :: fs := by
      cases hx : row with
      | nil => exact absurd hx (h row (List.mem_cons_self _ _))
      | cons f fs => exact ⟨f, fs, rfl⟩
    rw [show encodeCSV (row :: t) = (encodeRowChars row ++ ['\n']) ++ encodeCSV t from by
      simp [encodeCSV]]
    rw [List.append_assoc, show ['\n'] ++ encodeCSV t = '\n' :: encodeCSV t from rfl]
    rw [hrow, parseCSVAux_fields]
    rw [ih (fun r hr => h r (List.mem_cons_of_mem _ hr))]
    simp

/-- The reader inverts the writer on any table of non-empty rows. -/
theorem parseCSV_encodeCSV (table : List (List String)) (h : ∀ row ∈ table, row ≠ []) :
    parseCSV (encodeCSV table) = table := by
  unfold parseCSV
  rw [parseCSVAux_table table h []]
  rfl

/-- **C9.** Writing a non-empty DataFrame through the persistence
collaborator and re-reading the produced delimited text reproduces the
header of field names and every record's cell values, as strings, in the
same order. -/
theorem save_to_file_roundtrip (df : DataFrame)
    (hr : df.rows ≠ []) (hc : df.columns ≠ []) :
    ∃ content, save_to_file df = some content ∧
      parseCSV content = df.columns :: dfCells df := by
  refine ⟨encodeCSV (df.columns :: dfCells df), ?_, ?_⟩
  · unfold save_to_file
    rw [if_neg]
    simp only [Bool.or_eq_true, not_or]
    constructor
    · cases hx : df.rows with
      | nil => exact absurd hx hr
      | cons a l => simp
    · cases hx : df.columns with
      | nil => exact absurd hx hc
      | cons a l => simp [hx]
  · apply parseCSV_encodeCSV
    intro row hrow
    rcases List.mem_cons.mp hrow with h1 | h2
    · exact h1 ▸ hc
    · obtain ⟨r, _, hrr⟩ := List.mem_map.mp h2
      rw [← hrr]
      simp only [ne_eq, List.map_eq_nil_iff]
      exact hc

/-- Witness for `save_to_file_roundtrip` on a two-column, two-row
DataFrame whose values exercise the quoting path (a comma and a double
quote in cell values). -/
theorem save_to_file_roundtrip_witness :
    ∃ content,
      save_to_file ⟨["Instrument", "Typ instrumentu"],
        [[("Instrument", "BASE,Y-26"), ("Typ instrumentu", "60")],
         [("Instrument", "PEAK\"5"), ("Typ instrumentu", "45")]]⟩ = some content ∧
      parseCSV content =
        ["Instrument", "Typ instrumentu"] ::
          dfCells ⟨["Instrument", "Typ instrumentu"],
            [[("Instrument", "BASE,Y-26"), ("Typ instrumentu", "60")],
             [("Instrument", "PEAK\"5"), ("Typ instrumentu", "45")]]⟩ :=
  save_to_file_roundtrip
    ⟨["Instrument", "Typ instrumentu"],
      [[("Instrument", "BASE,Y-26"), ("Typ instrumentu", "60")],
       [("Instrument", "PEAK\"5"), ("Typ instrumentu", "45")]]⟩
    (by decide) (by decide)

end TGE
